import Mathlib

/-!
Shallow embedding of the `rtodo` terminal task tracker (`src/main.rs`)
and verification of its specification.

The program keeps a list of todo items, a table selection, an application
mode (browsing / add-form / edit-form), a transient text form, a sort mode
and a monotone id counter, and persists the item list as a sequence of
records with ISO-8601 dates.  Pure state transitions of the `App` struct
are embedded directly; wall-clock reads (`Local::now().date_naive()`) are
passed in as an explicit `today` argument, and the file system is
represented by an explicit read outcome / serialized record list.
-/

namespace RTodo

/-- Calendar date, mirroring `chrono::NaiveDate` as the program uses it
(year-month-day).  The embedding covers the year range 0-9999, on which
the `"%Y-%m-%d"` format used by the program prints exactly four
zero-padded year digits. -/
structure NaiveDate where
  year : Nat
  month : Nat
  day : Nat
deriving DecidableEq

/-- Leap-year rule of the proleptic Gregorian calendar used by chrono. -/
def isLeapYear (y : Nat) : Bool :=
  y % 4 == 0 && (y % 100 != 0 || y % 400 == 0)

/-- Number of days of month `m` in year `y`. -/
def daysInMonth (y m : Nat) : Nat :=
  if m == 2 then (if isLeapYear y then 29 else 28)
  else if m == 4 || m == 6 || m == 9 || m == 11 then 30
  else 31

/-- The validity check `chrono::NaiveDate` enforces on construction and
parsing: month in 1..=12, day in 1..=days-of-that-month. -/
def validDate (y m d : Nat) : Bool :=
  1 ≤ m && m ≤ 12 && 1 ≤ d && d ≤ daysInMonth y m

/-- The ASCII digit character for `n < 10`. -/
def digitChar (n : Nat) : Char := Char.ofNat (48 + n)

/-- Two zero-padded decimal digits (`"%m"` / `"%d"` output for values below 100). -/
def pad2Digits (n : Nat) : List Char :=
  [digitChar (n / 10 % 10), digitChar (n % 10)]

/-- Four zero-padded decimal digits (`"%Y"` output for years 0-9999). -/
def pad4Digits (n : Nat) : List Char :=
  [digitChar (n / 1000 % 10), digitChar (n / 100 % 10), digitChar (n / 10 % 10),
   digitChar (n % 10)]

/-- Embedding of `date.format("%Y-%m-%d").to_string()`: zero-padded ISO-8601 text.
This is also the `Display`/serde serialization of a `NaiveDate`. -/
def NaiveDate.format (d : NaiveDate) : String :=
  String.mk (pad4Digits d.year ++ '-' :: (pad2Digits d.month ++ '-' :: pad2Digits d.day))

/-- Split a character list at every `'-'`: field extraction step of
parsing with the `"%Y-%m-%d"` format string. -/
def splitDash : List Char → List (List Char)
  | [] => [[]]
  | c :: rest =>
    if c = '-' then [] :: splitDash rest
    else
      match splitDash rest with
      | [] => [[c]]
      | g :: gs => (c :: g) :: gs

/-- Decimal value of a digit string. -/
def digitsVal (l : List Char) : Nat :=
  l.foldl (fun n c => n * 10 + (c.toNat - 48)) 0

/-- A numeric field of the date format: one or more decimal digits. -/
def parseNatDigits (l : List Char) : Option Nat :=
  if l.isEmpty then none
  else if l.all (fun c => c.isDigit) then some (digitsVal l)
  else none

/-- Embedding of `NaiveDate::parse_from_str(s, "%Y-%m-%d")`: three dash-separated decimal
fields that must form a valid calendar date; anything else is an error
(`none`). -/
def NaiveDate.parse_from_str (s : String) : Option NaiveDate :=
  match splitDash s.toList with
  | [ys, ms, ds] =>
    match parseNatDigits ys, parseNatDigits ms, parseNatDigits ds with
    | some y, some m, some d => if validDate y m d then some ⟨y, m, d⟩ else none
    | _, _, _ => none
  | _ => none

/-- enum SortMode. -/
inductive SortMode
  | CreatedDate
  | TargetDate
  | Completion
deriving DecidableEq

/-- enum AppMode. -/
inductive AppMode
  | Normal
  | AddTask
  | EditTask
deriving DecidableEq

/-- struct TodoItem. -/
structure TodoItem where
  id : Nat
  title : String
  description : String
  target_date : NaiveDate
  created_date : NaiveDate
  completed : Bool
deriving DecidableEq

/-- Embedding of `TodoItem::new`; the wall-clock read `Local::now().date_naive()` is the
explicit `today` argument. -/
def TodoItem.new (id : Nat) (title description : String)
    (target_date today : NaiveDate) : TodoItem :=
  { id := id, title := title, description := description,
    target_date := target_date, created_date := today, completed := false }

/-- struct TaskForm: three text fields plus the active-field cursor. -/
structure TaskForm where
  title : String
  description : String
  target_date : String
  field_index : Nat
deriving DecidableEq

/-- Embedding of `TaskForm::default()`. -/
def TaskForm.empty : TaskForm :=
  { title := "", description := "", target_date := "", field_index := 0 }

/-- Embedding of `TaskForm::clear`: reset all fields and the cursor. -/
def TaskForm.clear (_f : TaskForm) : TaskForm := TaskForm.empty

/-- struct App.  `selected` is the `TableState` selection, `scroll` the
`ScrollbarState` content length; rendering-only data is otherwise omitted. -/
structure App where
  selected : Option Nat
  items : List TodoItem
  scroll : Nat
  mode : AppMode
  form : TaskForm
  sort_mode : SortMode
  next_id : Nat
  edit_id : Option Nat
deriving DecidableEq

/-- One serialized task record as serde renders a `TodoItem`
(dates via their ISO-8601 `Display` form). -/
structure SerTask where
  id : Nat
  title : String
  description : String
  target_date : String
  created_date : String
  completed : Bool
deriving DecidableEq

/-- Serialization of one task. -/
def serializeTask (t : TodoItem) : SerTask :=
  { id := t.id, title := t.title, description := t.description,
    target_date := t.target_date.format, created_date := t.created_date.format,
    completed := t.completed }

/-- Embedding of `serde_json::to_string_pretty(&self.items)` at the record level:
the serialized form is the sequence of serialized task records. -/
def serializeTasks (l : List TodoItem) : List SerTask := l.map serializeTask

/-- Deserialization of one record: both date strings must parse as
ISO-8601 calendar dates. -/
def decodeTask (r : SerTask) : Option TodoItem := do
  let td ← NaiveDate.parse_from_str r.target_date
  let cd ← NaiveDate.parse_from_str r.created_date
  some { id := r.id, title := r.title, description := r.description,
         target_date := td, created_date := cd, completed := r.completed }

/-- Record-level half of `serde_json::from_str::<Vec<TodoItem>>`: every
record must decode, otherwise the whole parse fails. -/
def decodeTasks (rs : List SerTask) : Option (List TodoItem) := rs.mapM decodeTask

/-- Outcome of looking at the save file at startup: the file may be
missing, unreadable (`fs::read_to_string` error), or readable with some
content; a readable content is abstracted to the result of the structural
JSON parse (`none` = not a JSON array of task-shaped records). -/
inductive ReadOutcome
  | missing
  | ioError
  | content (records : Option (List SerTask))

/-- Embedding of `self.items.iter().map(|item| item.id).max().unwrap_or(0)`. -/
def maxId (l : List TodoItem) : Nat :=
  (l.map (fun t => t.id)).foldl Nat.max 0

/-- Embedding of `App::load_tasks`: on a missing file nothing changes; on a read error
or a parse error the store is reset to empty with `next_id = 1`; on
success the items are installed and `next_id` becomes max id + 1. -/
def App.load_tasks (app : App) (r : ReadOutcome) : App :=
  match r with
  | .missing => app
  | .ioError => { app with items := [], next_id := 1 }
  | .content rs =>
    match rs.bind decodeTasks with
    | some tasks => { app with items := tasks, next_id := maxId tasks + 1 }
    | none => { app with items := [], next_id := 1 }

/-- Embedding of `App::save_tasks` is a fire-and-forget write of the serialized store;
its observable value is the record list written. -/
def App.save_tasks (app : App) : List SerTask := serializeTasks app.items

/-- Embedding of `App::update_scroll_state`. -/
def App.update_scroll_state (app : App) : App :=
  { app with scroll := app.items.length }

/-- The boolean order corresponding to each `sort_by` comparator: `le a b`
iff the Rust comparator returns `Less` or `Equal` on `(a, b)`.  Rust
`slice::sort_by` is a stable sort with respect to this order. -/
def sortLe (m : SortMode) (a b : TodoItem) : Bool :=
  match m with
  | .CreatedDate =>
      b.created_date.year < a.created_date.year ||
      (b.created_date.year == a.created_date.year &&
        (b.created_date.month < a.created_date.month ||
         (b.created_date.month == a.created_date.month &&
          b.created_date.day ≤ a.created_date.day)))
  | .TargetDate =>
      a.target_date.year < b.target_date.year ||
      (a.target_date.year == b.target_date.year &&
        (a.target_date.month < b.target_date.month ||
         (a.target_date.month == b.target_date.month &&
          a.target_date.day ≤ b.target_date.day)))
  | .Completion => !a.completed || b.completed

/-- Embedding of `App::sort_items`: stable sort of the items by the comparator of the
current sort mode. -/
def App.sort_items (app : App) : App :=
  { app with items := app.items.mergeSort (sortLe app.sort_mode) }

/-- Embedding of `App::next_row`. -/
def App.next_row (app : App) : App :=
  if app.items.isEmpty then app
  else
    let i := match app.selected with
      | some i => (i + 1) % app.items.length
      | none => 0
    { app with selected := some i }

/-- Embedding of `App::previous_row`. -/
def App.previous_row (app : App) : App :=
  if app.items.isEmpty then app
  else
    let i := match app.selected with
      | some i => if i == 0 then app.items.length - 1 else i - 1
      | none => 0
    { app with selected := some i }

/-- Embedding of `App::toggle_completed` (the trailing `save_tasks` call does not change
the in-memory state). -/
def App.toggle_completed (app : App) : App :=
  match app.selected with
  | none => app
  | some selected =>
    match app.items[selected]? with
    | none => app
    | some item =>
      { app with items := app.items.set selected { item with completed := !item.completed } }

/-- Embedding of `App::delete_selected`. -/
def App.delete_selected (app : App) : App :=
  match app.selected with
  | none => app
  | some selected =>
    if selected < app.items.length then
      let items := app.items.eraseIdx selected
      let sel : Option Nat :=
        if items.isEmpty then none
        else if items.length ≤ selected then some (items.length - 1)
        else app.selected
      App.update_scroll_state { app with items := items, selected := sel }
    else app

/-- Embedding of `App::start_add_task`. -/
def App.start_add_task (app : App) : App :=
  { app with mode := .AddTask, form := app.form.clear, edit_id := none }

/-- Embedding of `App::start_edit_task`. -/
def App.start_edit_task (app : App) : App :=
  match app.selected with
  | none => app
  | some selected =>
    match app.items[selected]? with
    | none => app
    | some item =>
      let filled : TaskForm :=
        { title := item.title, description := item.description,
          target_date := item.target_date.format, field_index := 0 }
      { app with mode := .EditTask, edit_id := some item.id, form := filled }

/-- Embedding of `self.items.iter_mut().find(|i| i.id == edit_id)` followed by the field
assignments: update the first item with the given id, leave the rest. -/
def editFirst (eid : Nat) (t d : String) (date : NaiveDate) :
    List TodoItem → List TodoItem
  | [] => []
  | i :: rest =>
    if i.id == eid then
      { i with title := t, description := d, target_date := date } :: rest
    else i :: editFirst eid t d date rest

/-- Embedding of `App::submit_form`.  On a successful date parse the store is mutated
(add or edit) and re-sorted; in every case — parse failure included — the
mode is set back to `Normal` at the end, and the form is never cleared
here. -/
def App.submit_form (app : App) (today : NaiveDate) : App :=
  match NaiveDate.parse_from_str app.form.target_date with
  | some target_date =>
    let app1 :=
      match app.mode with
      | .AddTask =>
        let item := TodoItem.new app.next_id app.form.title app.form.description
          target_date today
        App.update_scroll_state
          { app with items := app.items ++ [item], next_id := app.next_id + 1 }
      | .EditTask =>
        match app.edit_id with
        | some eid =>
          let newItems := editFirst eid app.form.title app.form.description
            target_date app.items
          { app with items := newItems }
        | none => app
      | .Normal => app
    { app1.sort_items with mode := .Normal }
  | none => { app with mode := .Normal }

/-- Embedding of `App::cancel_form`. -/
def App.cancel_form (app : App) : App :=
  { app with mode := .Normal, form := app.form.clear, edit_id := none }

/-- Embedding of `App::get_progress`. -/
def App.get_progress (app : App) : Nat × Nat :=
  ((app.items.filter (fun item => item.completed)).length, app.items.length)

/-- The struct literal in `App::new` before `load_tasks` runs. -/
def App.initial : App :=
  { selected := some 0, items := [], scroll := 0, mode := .Normal,
    form := TaskForm.empty, sort_mode := .CreatedDate, next_id := 1,
    edit_id := none }

/-- Embedding of `App::new` with the startup file read made explicit. -/
def App.new (r : ReadOutcome) : App :=
  App.update_scroll_state (App.initial.load_tasks r)

/-- The state reached after startup when the load succeeded with `tasks`
(the `Ok` branch of `load_tasks`): items installed, `next_id` recomputed
as max existing id + 1 (1 for the empty collection). -/
def App.afterLoad (tasks : List TodoItem) : App :=
  { App.initial with items := tasks, next_id := maxId tasks + 1 }

/-- The sort-mode key handlers in `App::run`: assign `sort_mode`, then
`sort_items`. -/
def App.set_sort_mode (app : App) (m : SortMode) : App :=
  App.sort_items { app with sort_mode := m }

/-- User-level store operations for id-allocation traces: a completed
add-form interaction (enter the add form, type the three fields, submit)
a delete, and the two navigation moves. -/
inductive StoreOp
  | add (title description target_text : String)
  | del
  | moveDown
  | moveUp

/-- Apply one operation.  `add` is `start_add_task`, then typing the three
fields into the cleared form, then `submit_form`. -/
def App.applyOp (app : App) (today : NaiveDate) : StoreOp → App
  | .add t d dt =>
    let filled : TaskForm := { title := t, description := d, target_date := dt, field_index := 0 }
    App.submit_form { app.start_add_task with form := filled } today
  | .del => app.delete_selected
  | .moveDown => app.next_row
  | .moveUp => app.previous_row

/-- Run a sequence of operations. -/
def App.runOps (app : App) (today : NaiveDate) : List StoreOp → App
  | [] => app
  | op :: ops => (app.applyOp today op).runOps today ops

/-- The ids handed out along an operation sequence, in order: a successful
add (its date text parses) assigns the current `next_id`, nothing else
assigns an id. -/
def assignedIds (app : App) (today : NaiveDate) : List StoreOp → List Nat
  | [] => []
  | op :: ops =>
    (match op with
     | .add _ _ dt => if (NaiveDate.parse_from_str dt).isSome then [app.next_id] else []
     | _ => []) ++ assignedIds (app.applyOp today op) today ops

/-! ## General helper lemmas -/

/-- Setting a position of a list to the element already there is the identity. -/
theorem set_getElem_eq_self {α : Type} :
    ∀ (l : List α) (i : Nat) (h : i < l.length), l.set i l[i] = l
  | _ :: _, 0, _ => rfl
  | a :: l, i + 1, h => by
    simp only [List.getElem_cons_succ, List.set_cons_succ]
    rw [set_getElem_eq_self l i (by simpa using h)]

/-! ## C1: submitting an invalid date -/

/-- Concrete form with an unparseable target date. -/
def c1Form : TaskForm :=
  { title := "T", description := "", target_date := "2024-13-40", field_index := 0 }

/-- Concrete application state sitting in the add-task form. -/
def c1App : App := { App.initial with mode := .AddTask, form := c1Form }

/-- C1 (counterexample): submitting the form in Creating mode with the
invalid date text "2024-13-40" leaves the task list unchanged, but the
mode afterwards is neither Creating nor Editing — `submit_form` sets it
back to Normal unconditionally, so the form does NOT remain open as the
claim states. -/
theorem submit_invalid_date_closes_form_cex :
    c1App.mode = AppMode.AddTask ∧
    NaiveDate.parse_from_str c1App.form.target_date = none ∧
    (c1App.submit_form ⟨2025, 1, 2⟩).items = c1App.items ∧
    (c1App.submit_form ⟨2025, 1, 2⟩).mode ≠ AppMode.AddTask ∧
    (c1App.submit_form ⟨2025, 1, 2⟩).mode ≠ AppMode.EditTask := by
  refine ⟨rfl, by decide, by decide, by decide, by decide⟩

/-- C1 (amended): if submit is issued in Creating or Editing mode and the
target-date text does not parse as a `%Y-%m-%d` date, the task list, the
id counter and the form contents are left unchanged (nothing is
committed), but the mode becomes Normal — the form closes rather than
remaining open. -/
theorem submit_invalid_date_no_commit (app : App) (today : NaiveDate)
    (_hm : app.mode = AppMode.AddTask ∨ app.mode = AppMode.EditTask)
    (hp : NaiveDate.parse_from_str app.form.target_date = none) :
    (app.submit_form today).items = app.items ∧
    (app.submit_form today).next_id = app.next_id ∧
    (app.submit_form today).form = app.form ∧
    (app.submit_form today).mode = AppMode.Normal := by
  unfold App.submit_form
  rw [hp]
  exact ⟨rfl, rfl, rfl, rfl⟩

/-- C1 witness: the amended theorem applied at the concrete invalid-date
state. -/
theorem submit_invalid_date_no_commit_witness :
    (c1App.submit_form ⟨2025, 1, 2⟩).items = c1App.items ∧
    (c1App.submit_form ⟨2025, 1, 2⟩).next_id = c1App.next_id ∧
    (c1App.submit_form ⟨2025, 1, 2⟩).form = c1App.form ∧
    (c1App.submit_form ⟨2025, 1, 2⟩).mode = AppMode.Normal :=
  submit_invalid_date_no_commit c1App ⟨2025, 1, 2⟩ (Or.inl rfl) (by decide)

/-! ## C2: exiting a form mode -/

/-- Concrete form with a valid date and a non-empty title. -/
def c2Form : TaskForm :=
  { title := "Buy milk", description := "", target_date := "2025-01-01", field_index := 0 }

/-- Concrete application state sitting in the add-task form. -/
def c2App : App := { App.initial with mode := .AddTask, form := c2Form }

/-- C2 (counterexample): a successful submit returns to Browsing but does
NOT reset the form fields — the title text survives the exit, so the
claim that every exit resets the fields to empty is false. -/
theorem submit_does_not_clear_form_cex :
    c2App.mode = AppMode.AddTask ∧
    NaiveDate.parse_from_str c2App.form.target_date =
      some { year := 2025, month := 1, day := 1 } ∧
    (c2App.submit_form ⟨2025, 1, 2⟩).mode = AppMode.Normal ∧
    (c2App.submit_form ⟨2025, 1, 2⟩).form.title = "Buy milk" ∧
    (c2App.submit_form ⟨2025, 1, 2⟩).form.title ≠ "" := by
  refine ⟨rfl, by decide, by decide, by decide, by decide⟩

/-- C2 (amended): every exit from a form mode — cancel, or submit whether
it succeeds or not — leaves the application mode at Normal (Browsing).
Cancel additionally resets the three form fields and the field cursor to
empty/0; submit leaves the form contents exactly as they were (they are
only cleared again on the next entry into a form mode). -/
theorem form_exit_always_normal (app : App) (today : NaiveDate) :
    app.cancel_form.mode = AppMode.Normal ∧
    app.cancel_form.form = TaskForm.empty ∧
    app.cancel_form.form.field_index = 0 ∧
    (app.submit_form today).mode = AppMode.Normal ∧
    (app.submit_form today).form = app.form := by
  refine ⟨rfl, rfl, rfl, ?_, ?_⟩ <;>
  · unfold App.submit_form
    cases NaiveDate.parse_from_str app.form.target_date with
    | none => rfl
    | some d =>
      cases app.mode <;> simp only [App.sort_items, App.update_scroll_state] <;>
        cases app.edit_id <;> rfl

/-! ## C7: deleting the selected task -/

/-- C7: with an in-range selection, delete removes exactly one task, and
afterwards the selection is the old index clamped to the new length
(`min s (len-1)` over the new length), or cleared when the store became
empty; in particular a surviving selection is always in range. -/
theorem delete_selected_spec (app : App) (s : Nat)
    (hs : app.selected = some s) (hl : s < app.items.length) :
    app.delete_selected.items.length + 1 = app.items.length ∧
    app.delete_selected.selected =
      (if app.items.length - 1 = 0 then none
       else some (min s (app.items.length - 1 - 1))) ∧
    (∀ j, app.delete_selected.selected = some j →
      j < app.delete_selected.items.length) ∧
    (app.delete_selected.selected = none → app.delete_selected.items = []) := by
  have hlen : (app.items.eraseIdx s).length = app.items.length - 1 :=
    List.length_eraseIdx_of_lt hl
  have hitems : app.delete_selected.items = app.items.eraseIdx s := by
    simp only [App.delete_selected, hs, if_pos hl, App.update_scroll_state]
  have hsel : app.delete_selected.selected =
      (if app.items.length - 1 = 0 then none
       else some (min s (app.items.length - 1 - 1))) := by
    simp only [App.delete_selected, hs, if_pos hl, App.update_scroll_state]
    by_cases h0 : app.items.length - 1 = 0
    · have he : (app.items.eraseIdx s).isEmpty = true := by
        rw [List.isEmpty_iff_length_eq_zero]
        omega
      simp [he, h0]
    · have he : (app.items.eraseIdx s).isEmpty = false := by
        rw [Bool.eq_false_iff, Ne, List.isEmpty_iff_length_eq_zero]
        omega
      simp only [he, Bool.false_eq_true, if_false, hlen, if_neg h0, hs]
      by_cases hge : app.items.length - 1 ≤ s
      · rw [if_pos hge]
        have hmin : app.items.length - 1 - 1 = min s (app.items.length - 1 - 1) := by omega
        rw [← hmin]
      · rw [if_neg hge]
        have hmin : s = min s (app.items.length - 1 - 1) := by omega
        rw [← hmin]
  refine ⟨by rw [hitems, hlen]; omega, hsel, ?_, ?_⟩
  · intro j hj
    rw [hsel] at hj
    rw [hitems, hlen]
    by_cases h0 : app.items.length - 1 = 0
    · rw [if_pos h0] at hj
      cases hj
    · rw [if_neg h0] at hj
      injection hj with hj
      omega
  · intro hnone
    rw [hsel] at hnone
    rw [hitems]
    by_cases h0 : app.items.length - 1 = 0
    · have hz : (app.items.eraseIdx s).length = 0 := by omega
      exact List.eq_nil_of_length_eq_zero hz
    · rw [if_neg h0] at hnone
      cases hnone

/-- Concrete list of three tasks. -/
def c7Items : List TodoItem :=
  [⟨1, "a", "", ⟨2025, 1, 1⟩, ⟨2025, 1, 1⟩, false⟩,
   ⟨2, "b", "", ⟨2025, 1, 2⟩, ⟨2025, 1, 1⟩, false⟩,
   ⟨3, "c", "", ⟨2025, 1, 3⟩, ⟨2025, 1, 1⟩, true⟩]

/-- Concrete store of three tasks with the last one selected. -/
def c7App : App := { App.initial with selected := some 2, items := c7Items }

/-- C7 witness: deleting index 2 of a three-task store leaves two tasks
with the selection clamped to 1. -/
theorem delete_selected_spec_witness :
    c7App.delete_selected.items.length + 1 = c7App.items.length ∧
    c7App.delete_selected.selected =
      (if c7App.items.length - 1 = 0 then none
       else some (min 2 (c7App.items.length - 1 - 1))) :=
  ⟨(delete_selected_spec c7App 2 rfl (by decide)).1,
   (delete_selected_spec c7App 2 rfl (by decide)).2.1⟩

/-! ## C8: toggling completion twice -/

/-- C8: with an in-range selection, toggling the selected task twice
restores the whole application state — in particular the task's
`completed` flag — to its prior value. -/
theorem toggle_completed_involutive (app : App) (s : Nat)
    (hs : app.selected = some s) (hl : s < app.items.length) :
    app.toggle_completed.toggle_completed = app := by
  have hget : app.items[s]? = some app.items[s] := List.getElem?_eq_getElem hl
  have hl2 : s < (app.items.set s
      { app.items[s] with completed := !app.items[s].completed }).length := by
    simpa using hl
  simp only [App.toggle_completed, hs, hget]
  simp only [List.getElem?_set_self (by simpa using hl), Bool.not_not]
  rw [List.set_set]
  rw [set_getElem_eq_self app.items s hl]
  rw [← hs]

/-- C8 witness: the double toggle applied at the concrete three-task
store. -/
theorem toggle_completed_involutive_witness :
    c7App.toggle_completed.toggle_completed = c7App :=
  toggle_completed_involutive c7App 2 rfl (by decide)

/-! ## C9: selection navigation -/

/-- C9: on a non-empty store with selection `i`, move-down selects
`(i+1) % n` and move-up selects `(i-1) mod n` (written `(i+n-1) % n` over
the naturals); on an empty store both commands leave the state
unchanged. -/
theorem navigation_wraps (app : App) :
    (app.items = [] → app.next_row = app ∧ app.previous_row = app) ∧
    (∀ i, app.selected = some i → i < app.items.length →
      app.next_row.selected = some ((i + 1) % app.items.length) ∧
      app.previous_row.selected =
        some ((i + app.items.length - 1) % app.items.length)) := by
  constructor
  · intro hnil
    constructor <;> simp [App.next_row, App.previous_row, hnil]
  · intro i hi hlt
    have hne : app.items.isEmpty = false := by
      simp only [List.isEmpty_eq_false]
      intro h
      rw [h] at hlt
      cases hlt
    have hpos : 0 < app.items.length := by omega
    constructor
    · simp [App.next_row, hne, hi]
    · simp only [App.previous_row, hne, Bool.false_eq_true, if_false, hi]
      congr 1
      by_cases h0 : i = 0
      · subst h0
        have hmod : (0 + app.items.length - 1) % app.items.length =
            0 + app.items.length - 1 := Nat.mod_eq_of_lt (by omega)
        simp only [beq_self_eq_true, if_true, hmod]
        omega
      · have hbeq : (i == 0) = false := by simpa using h0
        simp only [hbeq, Bool.false_eq_true, if_false]
        have heq : i + app.items.length - 1 = (i - 1) + app.items.length := by omega
        rw [heq, Nat.add_mod_right, Nat.mod_eq_of_lt (by omega)]

/-- C9 witness: both navigation moves from index 2 of the three-task
store, and the empty-store no-op. -/
theorem navigation_wraps_witness :
    (c7App.next_row.selected = some ((2 + 1) % c7App.items.length) ∧
     c7App.previous_row.selected =
       some ((2 + c7App.items.length - 1) % c7App.items.length)) ∧
    App.initial.next_row = App.initial ∧ App.initial.previous_row = App.initial :=
  ⟨(navigation_wraps c7App).2 2 rfl (by decide), (navigation_wraps App.initial).1 rfl⟩

/-! ## C6: startup load on missing, unreadable or malformed files -/

/-- C6: startup yields an empty store (with the id counter at 1) when the
save file is missing, when it cannot be read, and when its content does
not deserialize as a task list — the content is discarded rather than
propagated as a failure (the load function is total). -/
theorem load_failure_yields_empty (r : ReadOutcome)
    (h : r = ReadOutcome.missing ∨ r = ReadOutcome.ioError ∨
      ∃ rs, r = ReadOutcome.content rs ∧ rs.bind decodeTasks = none) :
    (App.new r).items = [] ∧ (App.new r).next_id = 1 := by
  rcases h with rfl | rfl | ⟨rs, rfl, hbad⟩
  · exact ⟨rfl, rfl⟩
  · exact ⟨rfl, rfl⟩
  · simp [App.new, App.load_tasks, App.update_scroll_state, hbad]

/-- A record whose target date text is not a calendar date. -/
def c6Rec : SerTask :=
  { id := 7, title := "x", description := "", target_date := "not a date",
    created_date := "2025-01-01", completed := false }

/-- C6 witness: loading a structurally readable record list whose date
field is garbage still starts empty. -/
theorem load_failure_yields_empty_witness :
    (App.new (ReadOutcome.content (some [c6Rec]))).items = [] ∧
    (App.new (ReadOutcome.content (some [c6Rec]))).next_id = 1 :=
  load_failure_yields_empty _ (Or.inr (Or.inr ⟨some [c6Rec], rfl, by decide⟩))

/-! ## C10: re-sorting is selection- and content-neutral -/

/-- C10: changing the sort mode (and any re-sort) keeps the numeric
selection index exactly as it was, and neither changes the list length
nor the multiset of tasks (the new list is a permutation of the old). -/
theorem sort_preserves_selection_and_tasks (app : App) (m : SortMode) :
    (app.set_sort_mode m).selected = app.selected ∧
    (app.set_sort_mode m).items.length = app.items.length ∧
    (app.set_sort_mode m).items.Perm app.items ∧
    app.sort_items.selected = app.selected ∧
    app.sort_items.items.Perm app.items := by
  refine ⟨rfl, ?_, ?_, rfl, ?_⟩
  · simp [App.set_sort_mode, App.sort_items]
  · exact List.mergeSort_perm app.items (sortLe m)
  · exact List.mergeSort_perm app.items (sortLe app.sort_mode)

/-! ## C5: save/load round-trip -/

/-- A date the program can serialize faithfully: a valid calendar date in
the four-digit year range. -/
def dateOk (d : NaiveDate) : Bool :=
  validDate d.year d.month d.day && d.year ≤ 9999

/-- Both dates of the task are serializable calendar dates. -/
def wellFormed (t : TodoItem) : Bool :=
  dateOk t.target_date && dateOk t.created_date

theorem digitChar_isDigit {k : Nat} (h : k < 10) : (digitChar k).isDigit = true := by
  interval_cases k <;> decide

theorem digitChar_ne_dash {k : Nat} (h : k < 10) : ¬ digitChar k = '-' := by
  interval_cases k <;> decide

theorem digitChar_toNat {k : Nat} (h : k < 10) : (digitChar k).toNat = 48 + k := by
  interval_cases k <;> decide

theorem pad2Digits_no_dash (n : Nat) : ∀ c ∈ pad2Digits n, c ≠ '-' := by
  intro c hc
  simp only [pad2Digits, List.mem_cons, List.not_mem_nil, or_false] at hc
  rcases hc with rfl | rfl
  · exact digitChar_ne_dash (Nat.mod_lt _ (by omega))
  · exact digitChar_ne_dash (Nat.mod_lt _ (by omega))

theorem pad4Digits_no_dash (n : Nat) : ∀ c ∈ pad4Digits n, c ≠ '-' := by
  intro c hc
  simp only [pad4Digits, List.mem_cons, List.not_mem_nil, or_false] at hc
  rcases hc with rfl | rfl | rfl | rfl <;>
    exact digitChar_ne_dash (Nat.mod_lt _ (by omega))

theorem parseNatDigits_pad2 (n : Nat) (h : n < 100) :
    parseNatDigits (pad2Digits n) = some n := by
  have d1 : n / 10 % 10 < 10 := Nat.mod_lt _ (by omega)
  have d2 : n % 10 < 10 := Nat.mod_lt _ (by omega)
  have hval : digitsVal (pad2Digits n) = n := by
    simp only [digitsVal, pad2Digits, List.foldl_cons, List.foldl_nil,
      digitChar_toNat d1, digitChar_toNat d2]
    omega
  simp [parseNatDigits, pad2Digits, digitChar_isDigit d1, digitChar_isDigit d2]
  simpa [pad2Digits] using hval

theorem parseNatDigits_pad4 (n : Nat) (h : n < 10000) :
    parseNatDigits (pad4Digits n) = some n := by
  have d1 : n / 1000 % 10 < 10 := Nat.mod_lt _ (by omega)
  have d2 : n / 100 % 10 < 10 := Nat.mod_lt _ (by omega)
  have d3 : n / 10 % 10 < 10 := Nat.mod_lt _ (by omega)
  have d4 : n % 10 < 10 := Nat.mod_lt _ (by omega)
  have hval : digitsVal (pad4Digits n) = n := by
    simp only [digitsVal, pad4Digits, List.foldl_cons, List.foldl_nil,
      digitChar_toNat d1, digitChar_toNat d2, digitChar_toNat d3, digitChar_toNat d4]
    omega
  simp [parseNatDigits, pad4Digits, digitChar_isDigit d1, digitChar_isDigit d2,
    digitChar_isDigit d3, digitChar_isDigit d4]
  simpa [pad4Digits] using hval

theorem splitDash_no_dash :
    ∀ (xs : List Char), (∀ c ∈ xs, c ≠ '-') → splitDash xs = [xs]
  | [], _ => rfl
  | c :: rest, h => by
    have hc : ¬ c = '-' := h c (List.mem_cons_self c rest)
    have ih := splitDash_no_dash rest (fun x hx => h x (List.mem_cons_of_mem c hx))
    simp only [splitDash, if_neg hc, ih]

theorem splitDash_append (xs ys : List Char) (h : ∀ c ∈ xs, c ≠ '-') :
    splitDash (xs ++ '-' :: ys) = xs :: splitDash ys := by
  induction xs with
  | nil => simp [splitDash]
  | cons c rest ih =>
    have hc : ¬ c = '-' := h c (List.mem_cons_self c rest)
    have ih2 := ih (fun x hx => h x (List.mem_cons_of_mem c hx))
    simp only [List.cons_append, splitDash, if_neg hc, List.append_eq, ih2]

theorem daysInMonth_le_31 (y m : Nat) : daysInMonth y m ≤ 31 := by
  unfold daysInMonth
  split
  · split <;> omega
  · split <;> omega

/-- Formatting a serializable date and parsing the result with the
`%Y-%m-%d` format recovers the date. -/
theorem parse_format (d : NaiveDate) (hok : dateOk d = true) :
    NaiveDate.parse_from_str d.format = some d := by
  have hv : validDate d.year d.month d.day = true := by
    have := hok
    simp only [dateOk, Bool.and_eq_true] at this
    exact this.1
  have hy : d.year < 10000 := by
    have := hok
    simp only [dateOk, Bool.and_eq_true, decide_eq_true_eq] at this
    omega
  have hb := hv
  simp only [validDate, Bool.and_eq_true, decide_eq_true_eq] at hb
  obtain ⟨⟨⟨hb1, hb2⟩, hb3⟩, hb4⟩ := hb
  have hm : d.month < 100 := by omega
  have hd : d.day < 100 := by
    have := daysInMonth_le_31 d.year d.month
    omega
  have hlist : d.format.toList =
      pad4Digits d.year ++ '-' :: (pad2Digits d.month ++ '-' :: pad2Digits d.day) := rfl
  unfold NaiveDate.parse_from_str
  rw [hlist, splitDash_append _ _ (pad4Digits_no_dash d.year),
    splitDash_append _ _ (pad2Digits_no_dash d.month),
    splitDash_no_dash _ (pad2Digits_no_dash d.day)]
  simp only [parseNatDigits_pad4 d.year hy, parseNatDigits_pad2 d.month hm,
    parseNatDigits_pad2 d.day hd, hv, if_true]

/-- Round-trip for one task record. -/
theorem decodeTask_serializeTask (t : TodoItem) (h : wellFormed t = true) :
    decodeTask (serializeTask t) = some t := by
  have h1 : dateOk t.target_date = true := by
    simp only [wellFormed, Bool.and_eq_true] at h
    exact h.1
  have h2 : dateOk t.created_date = true := by
    simp only [wellFormed, Bool.and_eq_true] at h
    exact h.2
  simp [decodeTask, serializeTask, parse_format _ h1, parse_format _ h2]

/-- C5: for a well-formed task collection — every task carrying valid
calendar dates in the four-digit year range — decoding the serialized
record list yields the same collection field-for-field, and at startup
loading that serialized content installs exactly the original tasks; in
the serialized form both date fields are the zero-padded ISO-8601
rendering of the dates. -/
theorem save_load_roundtrip (tasks : List TodoItem)
    (h : ∀ t ∈ tasks, wellFormed t = true) :
    decodeTasks (serializeTasks tasks) = some tasks ∧
    (App.initial.load_tasks (ReadOutcome.content (some (serializeTasks tasks)))).items
      = tasks ∧
    (serializeTasks tasks).map (fun r => r.target_date)
      = tasks.map (fun t => t.target_date.format) ∧
    (serializeTasks tasks).map (fun r => r.created_date)
      = tasks.map (fun t => t.created_date.format) := by
  have hdec : decodeTasks (serializeTasks tasks) = some tasks := by
    induction tasks with
    | nil => rfl
    | cons t ts ih =>
      have ht := h t (List.mem_cons_self t ts)
      have hts : (ts.map serializeTask).mapM decodeTask = some ts :=
        ih (fun x hx => h x (List.mem_cons_of_mem t hx))
      show ((t :: ts).map serializeTask).mapM decodeTask = some (t :: ts)
      rw [List.map_cons, List.mapM_cons, decodeTask_serializeTask t ht, hts]
      rfl
  refine ⟨hdec, ?_, by simp [serializeTasks, serializeTask], by simp [serializeTasks, serializeTask]⟩
  have hbind : (some (serializeTasks tasks)).bind decodeTasks = some tasks := hdec
  simp [App.load_tasks, hbind]

/-- A concrete well-formed task. -/
def c5Task : TodoItem := ⟨4, "Write report", "draft", ⟨2025, 2, 28⟩, ⟨2024, 12, 31⟩, true⟩

/-- C5 witness: the round-trip at a concrete one-task collection. -/
theorem save_load_roundtrip_witness :
    decodeTasks (serializeTasks [c5Task]) = some [c5Task] ∧
    (App.initial.load_tasks (ReadOutcome.content (some (serializeTasks [c5Task])))).items
      = [c5Task] :=
  ⟨(save_load_roundtrip [c5Task] (by decide)).1,
   (save_load_roundtrip [c5Task] (by decide)).2.1⟩

/-! ## C4: ByCompletion sort -/

theorem completionLe_trans (a b c : TodoItem) :
    sortLe SortMode.Completion a b → sortLe SortMode.Completion b c →
    sortLe SortMode.Completion a c := by
  simp only [sortLe]
  cases a.completed <;> cases b.completed <;> cases c.completed <;> simp

theorem completionLe_total (a b : TodoItem) :
    sortLe SortMode.Completion a b || sortLe SortMode.Completion b a := by
  simp only [sortLe]
  cases a.completed <;> cases b.completed <;> simp

/-- The class of tasks with a given `completed` value is pairwise related
by the completion comparator. -/
theorem completionLe_pairwise_filter (l : List TodoItem) (b : Bool) :
    (l.filter (fun t => t.completed == b)).Pairwise
      (fun x y => sortLe SortMode.Completion x y = true) := by
  apply List.pairwise_of_forall_mem_list
  intro x hx y hy
  have hxb : x.completed = b := by simpa using (List.mem_filter.mp hx).2
  have hyb : y.completed = b := by simpa using (List.mem_filter.mp hy).2
  simp only [sortLe, hxb, hyb]
  cases b <;> simp

/-- Stability of the completion sort, stated as: the subsequence of tasks
in each completion class is unchanged by the sort. -/
theorem completion_sort_filter (l : List TodoItem) (b : Bool) :
    (l.mergeSort (sortLe SortMode.Completion)).filter (fun t => t.completed == b)
      = l.filter (fun t => t.completed == b) := by
  set le := sortLe SortMode.Completion with hle
  set pb : TodoItem → Bool := fun t => t.completed == b with hpb
  have hsub : List.Sublist (l.filter pb) (l.mergeSort le) :=
    List.sublist_mergeSort completionLe_trans completionLe_total
      (completionLe_pairwise_filter l b) (List.filter_sublist l)
  have hself : (l.filter pb).filter pb = l.filter pb :=
    List.filter_eq_self.mpr (fun a ha => (List.mem_filter.mp ha).2)
  have hsub2 : List.Sublist (l.filter pb) ((l.mergeSort le).filter pb) := by
    have := hsub.filter pb
    rwa [hself] at this
  have hlen : ((l.mergeSort le).filter pb).length = (l.filter pb).length :=
    ((List.mergeSort_perm l le).filter pb).length_eq
  exact (hsub2.eq_of_length hlen.symm).symm

/-- C4: in ByCompletion mode the sorted list has every incomplete task
before every complete task (once a complete task appears, everything
after it is complete), and among tasks with equal `completed` value the
relative order of the input is preserved. -/
theorem completion_sort_stable (app : App) (hm : app.sort_mode = SortMode.Completion) :
    (∀ i j (hi : i < app.sort_items.items.length) (hj : j < app.sort_items.items.length),
      i < j → (app.sort_items.items.get ⟨i, hi⟩).completed = true →
      (app.sort_items.items.get ⟨j, hj⟩).completed = true) ∧
    (∀ b : Bool, app.sort_items.items.filter (fun t => t.completed == b)
      = app.items.filter (fun t => t.completed == b)) := by
  have hitems : app.sort_items.items = app.items.mergeSort (sortLe SortMode.Completion) := by
    simp [App.sort_items, hm]
  constructor
  · rw [hitems]
    intro i j hi hj hij hcomp
    have hsorted : (app.items.mergeSort (sortLe SortMode.Completion)).Pairwise
        (fun x y => sortLe SortMode.Completion x y = true) :=
      List.sorted_mergeSort completionLe_trans completionLe_total app.items
    have hrel := List.pairwise_iff_get.mp hsorted ⟨i, hi⟩ ⟨j, hj⟩ hij
    simp only [sortLe, hcomp] at hrel
    simpa using hrel
  · intro b
    rw [hitems]
    exact completion_sort_filter app.items b

/-- Concrete mixed-completion task list. -/
def c4Items : List TodoItem :=
  [⟨1, "done1", "", ⟨2025, 1, 1⟩, ⟨2025, 1, 1⟩, true⟩,
   ⟨2, "todo1", "", ⟨2025, 1, 2⟩, ⟨2025, 1, 1⟩, false⟩,
   ⟨3, "done2", "", ⟨2025, 1, 3⟩, ⟨2025, 1, 1⟩, true⟩,
   ⟨4, "todo2", "", ⟨2025, 1, 4⟩, ⟨2025, 1, 1⟩, false⟩]

/-- Concrete store in ByCompletion mode. -/
def c4App : App :=
  { App.initial with sort_mode := .Completion, items := c4Items }

/-- C4 witness: stability of both completion classes at the concrete
store, by the theorem. -/
theorem completion_sort_stable_witness :
    c4App.sort_mode = SortMode.Completion ∧
    c4App.sort_items.items.filter (fun t => t.completed == false)
      = c4App.items.filter (fun t => t.completed == false) ∧
    c4App.sort_items.items.filter (fun t => t.completed == true)
      = c4App.items.filter (fun t => t.completed == true) :=
  ⟨rfl, (completion_sort_stable c4App rfl).2 false,
   (completion_sort_stable c4App rfl).2 true⟩

/-! ## C3: id allocation along add/delete traces -/

theorem foldl_max_init (xs : List Nat) (init : Nat) : init ≤ xs.foldl Nat.max init := by
  induction xs generalizing init with
  | nil => exact Nat.le_refl init
  | cons a xs ih =>
    exact Nat.le_trans (Nat.le_max_left init a) (ih (Nat.max init a))

theorem mem_le_foldl_max (xs : List Nat) (init : Nat) :
    ∀ x ∈ xs, x ≤ xs.foldl Nat.max init := by
  induction xs generalizing init with
  | nil => intro x hx; cases hx
  | cons a xs ih =>
    intro x hx
    rcases List.mem_cons.mp hx with rfl | hx
    · exact Nat.le_trans (Nat.le_max_right init x) (foldl_max_init xs (Nat.max init x))
    · exact ih (Nat.max init a) x hx

/-- A successful add install: items gain the freshly numbered task and are
re-sorted, the id counter advances. -/
theorem applyOp_add_some (app : App) (today : NaiveDate) (t d dt : String)
    (v : NaiveDate) (hpd : NaiveDate.parse_from_str dt = some v) :
    (app.applyOp today (.add t d dt)).items =
      (app.items ++ [TodoItem.new app.next_id t d v today]).mergeSort
        (sortLe app.sort_mode) ∧
    (app.applyOp today (.add t d dt)).next_id = app.next_id + 1 := by
  refine ⟨?_, ?_⟩ <;>
    simp [App.applyOp, App.submit_form, App.start_add_task, TaskForm.clear, hpd,
      App.sort_items, App.update_scroll_state]

/-- A failed add (unparseable date) leaves items and the id counter
unchanged. -/
theorem applyOp_add_none (app : App) (today : NaiveDate) (t d dt : String)
    (hpd : NaiveDate.parse_from_str dt = none) :
    (app.applyOp today (.add t d dt)).items = app.items ∧
    (app.applyOp today (.add t d dt)).next_id = app.next_id := by
  refine ⟨?_, ?_⟩ <;>
    simp [App.applyOp, App.submit_form, App.start_add_task, TaskForm.clear, hpd]

theorem delete_selected_frame (app : App) :
    List.Sublist app.delete_selected.items app.items ∧
    app.delete_selected.next_id = app.next_id := by
  unfold App.delete_selected
  cases app.selected with
  | none => exact ⟨List.Sublist.refl _, rfl⟩
  | some s =>
    by_cases h : s < app.items.length
    · simp only [if_pos h, App.update_scroll_state]
      exact ⟨List.eraseIdx_sublist app.items s, trivial⟩
    · simp only [if_neg h]
      exact ⟨List.Sublist.refl _, trivial⟩

theorem next_row_frame (app : App) :
    app.next_row.items = app.items ∧ app.next_row.next_id = app.next_id := by
  simp only [App.next_row]
  by_cases h : app.items.isEmpty = true <;> simp [h]

theorem previous_row_frame (app : App) :
    app.previous_row.items = app.items ∧ app.previous_row.next_id = app.next_id := by
  simp only [App.previous_row]
  by_cases h : app.items.isEmpty = true <;> simp [h]

/-- The id counter never decreases under any operation. -/
theorem applyOp_next_id_mono (app : App) (today : NaiveDate) (op : StoreOp) :
    app.next_id ≤ (app.applyOp today op).next_id := by
  cases op with
  | add t d dt =>
    cases hpd : NaiveDate.parse_from_str dt with
    | none => rw [(applyOp_add_none app today t d dt hpd).2]
    | some v => rw [(applyOp_add_some app today t d dt v hpd).2]; omega
  | del => rw [show (app.applyOp today .del) = app.delete_selected from rfl,
      (delete_selected_frame app).2]
  | moveDown => rw [show (app.applyOp today .moveDown) = app.next_row from rfl,
      (next_row_frame app).2]
  | moveUp => rw [show (app.applyOp today .moveUp) = app.previous_row from rfl,
      (previous_row_frame app).2]

/-- Every id in the store stays strictly below the id counter. -/
theorem applyOp_ids_below (app : App) (today : NaiveDate) (op : StoreOp)
    (h : ∀ x ∈ app.items, x.id < app.next_id) :
    ∀ x ∈ (app.applyOp today op).items, x.id < (app.applyOp today op).next_id := by
  cases op with
  | add t d dt =>
    cases hpd : NaiveDate.parse_from_str dt with
    | none =>
      obtain ⟨hi, hn⟩ := applyOp_add_none app today t d dt hpd
      rw [hi, hn]
      exact h
    | some v =>
      obtain ⟨hi, hn⟩ := applyOp_add_some app today t d dt v hpd
      rw [hi, hn]
      intro x hx
      rcases List.mem_append.mp (List.mem_mergeSort.mp hx) with hx | hx
      · exact Nat.lt_succ_of_lt (h x hx)
      · rcases List.mem_singleton.mp hx with rfl
        exact Nat.lt_succ_self _
  | del =>
    obtain ⟨hsub, hn⟩ := delete_selected_frame app
    intro x hx
    rw [show (app.applyOp today .del) = app.delete_selected from rfl] at hx ⊢
    rw [hn]
    exact h x (hsub.mem hx)
  | moveDown =>
    obtain ⟨hi, hn⟩ := next_row_frame app
    intro x hx
    rw [show (app.applyOp today .moveDown) = app.next_row from rfl] at hx ⊢
    rw [hn]
    rw [hi] at hx
    exact h x hx
  | moveUp =>
    obtain ⟨hi, hn⟩ := previous_row_frame app
    intro x hx
    rw [show (app.applyOp today .moveUp) = app.previous_row from rfl] at hx ⊢
    rw [hn]
    rw [hi] at hx
    exact h x hx

/-- Every id assigned along a trace is at least the current counter. -/
theorem assignedIds_lower (today : NaiveDate) (ops : List StoreOp) :
    ∀ (app : App), ∀ a ∈ assignedIds app today ops, app.next_id ≤ a := by
  induction ops with
  | nil => intro app a ha; cases ha
  | cons op ops ih =>
    intro app a ha
    have htail : ∀ b ∈ assignedIds (app.applyOp today op) today ops,
        app.next_id ≤ b := fun b hb =>
      Nat.le_trans (applyOp_next_id_mono app today op)
        (ih (app.applyOp today op) b hb)
    cases op with
    | add t d dt =>
      simp only [assignedIds, List.mem_append] at ha
      rcases ha with ha | ha
      · by_cases hpd : (NaiveDate.parse_from_str dt).isSome = true
        · rw [if_pos hpd] at ha
          rcases List.mem_singleton.mp ha with rfl
          exact Nat.le_refl _
        · rw [if_neg hpd] at ha
          cases ha
      · exact htail a ha
    | del =>
      simp only [assignedIds, List.nil_append] at ha
      exact htail a ha
    | moveDown =>
      simp only [assignedIds, List.nil_append] at ha
      exact htail a ha
    | moveUp =>
      simp only [assignedIds, List.nil_append] at ha
      exact htail a ha

/-- The ids assigned along any trace are strictly increasing in order of
assignment — in particular pairwise distinct, and a deleted task's id is
never handed out again. -/
theorem assignedIds_pairwise (today : NaiveDate) (ops : List StoreOp) :
    ∀ (app : App), (assignedIds app today ops).Pairwise (· < ·) := by
  induction ops with
  | nil => intro app; exact List.Pairwise.nil
  | cons op ops ih =>
    intro app
    cases op with
    | add t d dt =>
      by_cases hpd : (NaiveDate.parse_from_str dt).isSome = true
      · obtain ⟨v, hv⟩ := Option.isSome_iff_exists.mp hpd
        have hinc := (applyOp_add_some app today t d dt v hv).2
        simp only [assignedIds, if_pos hpd, List.singleton_append]
        refine List.Pairwise.cons ?_ (ih _)
        intro a ha
        have := assignedIds_lower today ops _ a ha
        omega
      · simp only [assignedIds, if_neg hpd, List.nil_append]
        exact ih _
    | del =>
      simp only [assignedIds, List.nil_append]
      exact ih _
    | moveDown =>
      simp only [assignedIds, List.nil_append]
      exact ih _
    | moveUp =>
      simp only [assignedIds, List.nil_append]
      exact ih _

/-- C3: starting from a loaded collection, the id counter is
max(existing ids)+1 (1 for an empty collection), every loaded id is below
it, and along any sequence of add/delete/navigation operations the
assigned ids are strictly increasing in order of assignment (hence
unique) and strictly greater than every loaded id — deletion never makes
an id reusable. -/
theorem add_ids_unique_monotone (tasks : List TodoItem) (today : NaiveDate)
    (ops : List StoreOp) :
    (App.afterLoad tasks).next_id = maxId tasks + 1 ∧
    (App.afterLoad []).next_id = 1 ∧
    (∀ t ∈ tasks, t.id < (App.afterLoad tasks).next_id) ∧
    (assignedIds (App.afterLoad tasks) today ops).Pairwise (· < ·) ∧
    (∀ a ∈ assignedIds (App.afterLoad tasks) today ops, ∀ t ∈ tasks, t.id < a) := by
  have hbelow : ∀ t ∈ tasks, t.id < maxId tasks + 1 := by
    intro t ht
    have := mem_le_foldl_max (tasks.map (fun x => x.id)) 0 t.id
      (List.mem_map_of_mem _ ht)
    simp only [maxId]
    omega
  refine ⟨rfl, rfl, hbelow, assignedIds_pairwise today ops _, ?_⟩
  intro a ha t ht
  have h1 := assignedIds_lower today ops _ a ha
  have h2 := hbelow t ht
  have h3 : (App.afterLoad tasks).next_id = maxId tasks + 1 := rfl
  rw [h3] at h1
  omega

/-- Concrete loaded collection with ids 5 and 2. -/
def c3Tasks : List TodoItem :=
  [⟨5, "a", "", ⟨2025, 1, 1⟩, ⟨2025, 1, 1⟩, false⟩,
   ⟨2, "b", "", ⟨2025, 1, 2⟩, ⟨2025, 1, 1⟩, true⟩]

/-- Concrete trace: a delete, a successful add, a rejected add and
another successful add. -/
def c3Ops : List StoreOp :=
  [.del, .add "x" "" "2025-01-01", .add "y" "" "not a date", .add "z" "" "2025-02-03"]

/-- C3 witness: along the concrete trace the assigned ids evaluate to
[6, 7] — strictly above the loaded maximum 5, skipping nothing for the
delete and the rejected add — and are strictly increasing by the
theorem. -/
theorem add_ids_unique_monotone_witness :
    (assignedIds (App.afterLoad c3Tasks) ⟨2025, 1, 2⟩ c3Ops).Pairwise (· < ·) ∧
    assignedIds (App.afterLoad c3Tasks) ⟨2025, 1, 2⟩ c3Ops = [6, 7] ∧
    (App.afterLoad c3Tasks).next_id = 6 :=
  ⟨(add_ids_unique_monotone c3Tasks ⟨2025, 1, 2⟩ c3Ops).2.2.2.1, by decide, by decide⟩

end RTodo
